import Mathlib

/-!
Verification development for the IcePatch server daemon
(`src/cpp/src/IcePatch/Server.cpp`): a shallow embedding of the
lifecycle orchestrator (`IcePatch::Server::run`), the background
updater (`IcePatch::Updater`: `run`, `destroy`, `cleanup`), and a small
interleaving model of the monitor-lock discipline between the updater
worker and a caller of `destroy()`.
-/

namespace IcePatch

/-- Exceptions the updater classifies in its catch chain:
`FileAccessException` (carries a `reason` string), `BusyException`,
and any other `Ice::Exception` (carried here as a description). -/
inductive IceException where
  | fileAccess (reason : String)
  | busy
  | other (desc : String)
deriving DecidableEq, Repr

mutual

/-- A node descriptor as the updater sees it.  A directory answers
`getContents()` (which may throw, modelled by `err`); a regular file
answers `getBZ2Size()` (which may throw, modelled by `err`).  `i` is
an identifier for the regular file so invocations can be counted. -/
inductive FileDesc where
  | directoryDesc (err : Option IceException) (contents : FileDescSeq)
  | regularDesc (i : Nat) (err : Option IceException)

/-- The `FileDescSeq` of the source, as its own sequence type so that
the traversal can recurse structurally. -/
inductive FileDescSeq where
  | nil
  | cons (fd : FileDesc) (rest : FileDescSeq)

end

/-- Result of a (partial) traversal: `clock` counts node visits (the
times at which the `_destroy` flag is sampled are clock values),
`warmed` lists the ids of regular files on which `getBZ2Size()` was
invoked, in order, and `err` is the exception that escaped, if any. -/
structure CleanupResult where
  clock : Nat
  warmed : List Nat
  err : Option IceException
deriving DecidableEq, Repr

mutual

/-- Body of `IcePatch::Updater::cleanup` after its entry check: the
`for` loop over the sequence, aborted by the first escaping
exception. -/
def cleanupSeq (flag : Nat → Bool) (t : Nat) : FileDescSeq → CleanupResult
  | .nil => ⟨t, [], none⟩
  | .cons fd rest =>
    let r := cleanupNode flag t fd
    match r.err with
    | some _ => r
    | none =>
      let r2 := cleanupSeq flag r.clock rest
      ⟨r2.clock, r.warmed ++ r2.warmed, r2.err⟩
termination_by structural fds => fds

/-- One iteration of the loop in `IcePatch::Updater::cleanup`: a
directory child first answers `getContents()` (failure propagates) and
then the recursive `cleanup` call re-checks the `_destroy` flag before
processing that directory's contents; a regular child has
`getBZ2Size()` invoked on it (failure propagates after the
invocation).  The flag is a function of the visit clock, modelling
that a concurrent `destroy()` could in principle set it at any point
in time. -/
def cleanupNode (flag : Nat → Bool) (t : Nat) : FileDesc → CleanupResult
  | .directoryDesc derr cs =>
    match derr with
    | some e => ⟨t + 1, [], some e⟩
    | none =>
      if flag (t + 1) then ⟨t + 1, [], none⟩
      else cleanupSeq flag (t + 1) cs
  | .regularDesc i rerr =>
    match rerr with
    | some e => ⟨t + 1, [i], some e⟩
    | none => ⟨t + 1, [i], none⟩
termination_by structural fd => fd

end

/-- `IcePatch::Updater::cleanup`: check the `_destroy` flag and return
immediately if it is set, otherwise process the sequence.  The same
check-then-loop shape recurs for each directory child inside
`cleanupNode`. -/
def cleanup (flag : Nat → Bool) (t : Nat) (fds : FileDescSeq) : CleanupResult :=
  if flag t then ⟨t, [], none⟩
  else cleanupSeq flag t fds

/-- Environment of one traversal pass of `IcePatch::Updater::run`.
`rootErr` models a failure in the steps before the `cleanup` call
(`pathToIdentity`, `createProxy`, `checkedCast`, `describe`, or the
root directory's own `getContents()`); `rootContents` is the sequence
the root directory resolves to (the source asserts the root is a
directory); `shutdownFromInterrupt` is the value of
`Application::isShutdownFromInterrupt()` consulted by the catch
handler for generic exceptions. -/
structure PassEnv where
  rootErr : Option IceException
  rootContents : FileDescSeq
  shutdownFromInterrupt : Bool

/-- The try block of one loop iteration of `IcePatch::Updater::run`. -/
def runPass (env : PassEnv) (flag : Nat → Bool) (t : Nat) : CleanupResult :=
  match env.rootErr with
  | some e => ⟨t, [], some e⟩
  | none => cleanup flag t env.rootContents

/-- The log line emitted for a `FileAccessException` (quotation
punctuation of the stream output elided): the handler prints the
exception and then its `reason` member. -/
def accessLog (reason : String) : String :=
  "exception during update:\nFileAccessException:\n" ++ reason

/-- The log line emitted for a generic `Ice::Exception`. -/
def otherLog (desc : String) : String :=
  "exception during update:\n" ++ desc

/-- The catch chain of `IcePatch::Updater::run`: a
`FileAccessException` is always logged with its reason; a
`BusyException` is silently swallowed; any other exception is logged
only when `Application::isShutdownFromInterrupt()` is false. -/
def classifyLogs (e : IceException) (shutdownFromInterrupt : Bool) : List String :=
  match e with
  | .fileAccess r => [accessLog r]
  | .busy => []
  | .other d => if shutdownFromInterrupt then [] else [otherLog d]

/-- Observable outcome of one iteration of the while loop of
`IcePatch::Updater::run`: the visit clock after the pass, the log
lines emitted, the `getBZ2Size()` invocations performed, and whether
the iteration reaches `timedWait(_updatePeriod)` (`continues = true`)
or breaks out of the loop at the post-pass `_destroy` check. -/
structure IterResult where
  clock : Nat
  logs : List String
  warmed : List Nat
  continues : Bool
deriving DecidableEq, Repr

/-- One iteration of the while loop of `IcePatch::Updater::run`: run
the pass, classify an escaping exception, then check `_destroy` and
either break or proceed to `timedWait`. -/
def runIteration (env : PassEnv) (flag : Nat → Bool) (t : Nat) : IterResult :=
  let r := runPass env flag t
  let logs : List String :=
    match r.err with
    | none => []
    | some e => classifyLogs e env.shutdownFromInterrupt
  ⟨r.clock, logs, r.warmed, !flag r.clock⟩

/-- Accumulated observable behaviour of the worker loop. -/
structure LoopResult where
  logs : List String
  warmed : List Nat
deriving DecidableEq, Repr

/-- The while loop of `IcePatch::Updater::run`, fuelled by a bound on
the number of iterations: the loop-top `while(!_destroy)` check, then
one iteration; a `timedWait` consumes one clock tick before the next
loop-top check. -/
def runLoop (env : PassEnv) (flag : Nat → Bool) : Nat → Nat → LoopResult
  | _, 0 => ⟨[], []⟩
  | t, fuel + 1 =>
    if flag t then ⟨[], []⟩
    else
      let it := runIteration env flag t
      if it.continues then
        let r := runLoop env flag (it.clock + 1) fuel
        ⟨it.logs ++ r.logs, it.warmed ++ r.warmed⟩
      else ⟨it.logs, it.warmed⟩

/-- Configuration values `IcePatch::Server::run` reads from the
communicator properties: `IcePatch.Endpoints`, `IcePatch.Directory`
(with whether the `chdir` to it would fail), and
`IcePatch.UpdatePeriod` (a 32-bit integer property, default 60). -/
structure ServerConfig where
  endpoints : String
  directory : String
  chdirFails : Bool
  updatePeriod : Int

/-- Observable outcome of `IcePatch::Server::run`: the exit status
(0 for `EXIT_SUCCESS`, 1 for `EXIT_FAILURE`), the lines written to the
error and output streams, whether the object adapter was created, and
the effective period of the `Updater` constructed, if any. -/
structure ServerResult where
  exit : Nat
  cerr : List String
  cout : List String
  adapterCreated : Bool
  updaterPeriod : Option Int
deriving DecidableEq, Repr

/-- The text printed by `IcePatch::Server::usage` to the error
stream. -/
def usageLines (appName : String) : List String :=
  ["Usage: " ++ appName ++ " [options]",
   "Options:",
   "-h, --help           Show this message.",
   "-v, --version        Display the Ice version."]

/-- `IcePatch::Server::run` up to adapter activation (quotation
punctuation of the stream output elided).  The argument loop returns
from its first iteration in every branch, so only the first argument
is ever examined.  After option handling: the `IcePatch.Endpoints`
property must be non-empty; a non-empty `IcePatch.Directory` is
changed into (failure is fatal); the adapter is created and the
`Updater` is constructed exactly when the update period is non-zero,
with periods below 10 seconds raised to 10. -/
def serverRun (appName version : String) (args : List String) (cfg : ServerConfig) :
    ServerResult :=
  match args with
  | a :: _ =>
    if a = "-h" ∨ a = "--help" then
      ⟨0, usageLines appName, [], false, none⟩
    else if a = "-v" ∨ a = "--version" then
      ⟨0, [], [version], false, none⟩
    else
      ⟨1, (appName ++ ": unknown option " ++ a) :: usageLines appName, [], false, none⟩
  | [] =>
    if cfg.endpoints = "" then
      ⟨1, [appName ++ ": property IcePatch.Endpoints is not set"], [], false, none⟩
    else if cfg.directory ≠ "" ∧ cfg.chdirFails then
      ⟨1, [appName ++ ": cannot change to directory " ++ cfg.directory], [], false, none⟩
    else
      ⟨0, [], [], true,
        if cfg.updatePeriod ≠ 0 then
          some (if cfg.updatePeriod < 10 then 10 else cfg.updatePeriod)
        else none⟩

/-- State owned by an `Updater` object that the operations touch:
the `_destroy` flag, whether the monitor condition has been signalled
(`notify()`), and whether the worker context has already returned. -/
structure UpdaterState where
  destroy : Bool
  notified : Bool
  terminated : Bool
deriving DecidableEq, Repr

/-- State established by the `Updater` constructor: `_destroy(false)`,
no signal pending, worker not yet run. -/
def initUpdater : UpdaterState := ⟨false, false, false⟩

/-- `IcePatch::Updater::destroy`: under the monitor lock, set
`_destroy = true` and `notify()`.  Nothing else changes. -/
def destroyOp (s : UpdaterState) : UpdaterState :=
  { s with destroy := true, notified := true }

/-- The operations that can touch the updater state: a `destroy()`
call, or a step of the worker, which only reads `_destroy` and never
writes it. -/
inductive UpdaterOp where
  | destroyCall
  | workerStep
deriving DecidableEq, Repr

/-- Effect of one operation on the updater state. -/
def applyOp (s : UpdaterState) : UpdaterOp → UpdaterState
  | .destroyCall => destroyOp s
  | .workerStep => s

/-- Effect of a sequence of operations on the updater state. -/
def applyOps (s : UpdaterState) : List UpdaterOp → UpdaterState
  | [] => s
  | op :: ops => applyOps (applyOp s op) ops

/-- The value of the `_destroy` flag after the first `t` operations of
a schedule, starting from the constructed state; this is the flag
history a worker running under that schedule observes. -/
def flagOfSchedule (sched : List UpdaterOp) (t : Nat) : Bool :=
  (applyOps initUpdater (sched.take t)).destroy

/-! An interleaving model of the monitor discipline of
`IcePatch::Updater`.  `Updater::run` takes the monitor lock at its top
and holds it for the whole while loop; the lock is released only
inside `timedWait`.  `Updater::destroy` must take the same lock before
it can set `_destroy`.  The model runs the worker against one pass of
a fixed number of node visits and one caller of `destroy()`. -/

/-- Program counter of the worker inside `IcePatch::Updater::run`:
the loop-top `while(!_destroy)` check, a pass with a number of node
visits remaining, the post-pass `if(_destroy)` check, the `timedWait`,
and having returned. -/
inductive WorkerPC where
  | loopTop
  | pass (remaining : Nat)
  | postPass
  | waiting
  | finished
deriving DecidableEq, Repr

/-- Program counter of the caller of `destroy()`: not yet called,
blocked acquiring the monitor lock, or returned. -/
inductive DestroyerPC where
  | idle
  | acquiring
  | finished
deriving DecidableEq, Repr

/-- Whether the worker holds the monitor lock at a given program
point: it holds the lock everywhere in the loop except inside
`timedWait`, and releases it when `run` returns. -/
def workerHoldsLock : WorkerPC → Bool
  | .loopTop => true
  | .pass _ => true
  | .postPass => true
  | .waiting => false
  | .finished => false

/-- Combined state of the worker, the destroyer, and the shared
`_destroy` flag.  `visitsAfterStopRequest` counts the node visits the
worker performs after `destroy()` has been called. -/
structure SysState where
  wpc : WorkerPC
  dpc : DestroyerPC
  destroyFlag : Bool
  visitsAfterStopRequest : Nat
deriving DecidableEq, Repr

/-- Initial system state: worker at loop top holding the lock (as
`run` takes the lock immediately), destroyer not yet called,
`_destroy` false. -/
def sysInit : SysState := ⟨.loopTop, .idle, false, 0⟩

/-- One step of the worker, for a pass of `n` node visits: the
loop-top check starts a pass or exits; each node visit re-samples the
flag as the `cleanup` recursion does (returning early if it were set);
the post-pass check either breaks or enters `timedWait`; a wait wakes
(by timeout or by `notify`) back to the loop top, re-acquiring the
lock, which is free because the destroyer holds it only transiently. -/
def workerStepSys (n : Nat) (s : SysState) : SysState :=
  match s.wpc with
  | .loopTop =>
    if s.destroyFlag then { s with wpc := .finished } else { s with wpc := .pass n }
  | .pass 0 => { s with wpc := .postPass }
  | .pass (r + 1) =>
    if s.destroyFlag then { s with wpc := .postPass }
    else
      { s with wpc := .pass r,
               visitsAfterStopRequest :=
                 s.visitsAfterStopRequest + (if s.dpc = .idle then 0 else 1) }
  | .postPass =>
    if s.destroyFlag then { s with wpc := .finished } else { s with wpc := .waiting }
  | .waiting => { s with wpc := .loopTop }
  | .finished => s

/-- One step of the destroyer: if it is trying to acquire the monitor
lock and the worker holds it, it stays blocked; once the lock is
free it atomically sets `_destroy`, notifies, releases and returns. -/
def destroyerStepSys (s : SysState) : SysState :=
  match s.dpc with
  | .acquiring =>
    if workerHoldsLock s.wpc then s
    else { s with destroyFlag := true, dpc := .finished }
  | _ => s

/-- Events of the interleaving: a worker step, the external request
that invokes `destroy()`, or a step of the blocked destroyer. -/
inductive SysEvent where
  | workerTick
  | requestStop
  | destroyerTick
deriving DecidableEq, Repr

/-- Apply one event to the system state. -/
def sysStep (n : Nat) (s : SysState) : SysEvent → SysState
  | .workerTick => workerStepSys n s
  | .requestStop => if s.dpc = .idle then { s with dpc := .acquiring } else s
  | .destroyerTick => destroyerStepSys s

/-- Run a schedule of events from a state. -/
def sysRun (n : Nat) (s : SysState) : List SysEvent → SysState
  | [] => s
  | e :: es => sysRun n (sysStep n s e) es

/-- The schedule in which `destroy()` is called right after the worker
has begun a pass: the worker enters the pass, the stop is requested,
the destroyer attempts to acquire the lock, the worker performs all
`n` node visits and the post-pass check and only then releases the
lock in `timedWait`; the destroyer now sets the flag; the worker wakes
and exits at the loop-top check. -/
def stopDuringPassSchedule (n : Nat) : List SysEvent :=
  [.workerTick, .requestStop, .destroyerTick] ++
    List.replicate n .workerTick ++
    [.workerTick, .workerTick, .destroyerTick, .workerTick, .workerTick]

/-- Composing operation sequences on the updater state. -/
theorem applyOps_append (s : UpdaterState) (l1 l2 : List UpdaterOp) :
    applyOps s (l1 ++ l2) = applyOps (applyOps s l1) l2 := by
  induction l1 generalizing s with
  | nil => rfl
  | cons op ops ih => simp [applyOps, ih]

/-- Claim C1, counterexample.  The claim says a stop request raised
during a pass bounds shutdown latency to roughly one node-visit.  In
the monitor model of the source, `destroy()` blocks on the monitor
lock that the worker holds for the whole pass: in the schedule where
the stop is requested right after a 100-node pass begins (after two
events the worker is mid-pass and the destroyer is blocked acquiring),
the worker still performs all 100 node visits after the request before
it can observe the flag and finish. -/
theorem claim1_counterexample :
    (sysRun 100 sysInit [SysEvent.workerTick, SysEvent.requestStop]).wpc
        = WorkerPC.pass 100 ∧
    (sysRun 100 sysInit [SysEvent.workerTick, SysEvent.requestStop]).dpc
        = DestroyerPC.acquiring ∧
    (sysRun 100 sysInit (stopDuringPassSchedule 100)).wpc = WorkerPC.finished ∧
    (sysRun 100 sysInit (stopDuringPassSchedule 100)).visitsAfterStopRequest = 100 ∧
    ¬ (sysRun 100 sysInit (stopDuringPassSchedule 100)).visitsAfterStopRequest ≤ 1 := by
  set_option maxRecDepth 4000 in decide

/-- Claim C1, amended.  `cleanup` checks the stop flag before
processing a directory's children — at its own entry and again before
each subdirectory's contents — and if the flag is set it returns
immediately, visiting none of that directory's entries; however, a
caller of `destroy()` cannot change the flag while the worker holds
the monitor lock, which it does for the entire pass, so a stop request
raised during a pass takes effect only once the pass reaches its timed
wait: shutdown latency is bounded by one full pass, not one
node-visit. -/
theorem claim1_amended :
    (∀ (flag : Nat → Bool) (t : Nat) (fds : FileDescSeq),
      flag t = true → cleanup flag t fds = ⟨t, [], none⟩) ∧
    (∀ (flag : Nat → Bool) (t : Nat) (cs : FileDescSeq),
      flag (t + 1) = true →
      cleanupNode flag t (FileDesc.directoryDesc none cs) = ⟨t + 1, [], none⟩) ∧
    (∀ s : SysState, workerHoldsLock s.wpc = true → destroyerStepSys s = s) ∧
    (sysRun 100 sysInit (stopDuringPassSchedule 100)).wpc = WorkerPC.finished ∧
    (sysRun 100 sysInit (stopDuringPassSchedule 100)).visitsAfterStopRequest = 100 := by
  refine ⟨?_, ?_, ?_, ?_, ?_⟩
  · intro flag t fds h
    simp [cleanup, h]
  · intro flag t cs h
    simp [cleanupNode, h]
  · intro s h
    cases hd : s.dpc <;> simp [destroyerStepSys, hd, h]
  · set_option maxRecDepth 4000 in decide
  · set_option maxRecDepth 4000 in decide

/-- Claim C1, witness for the amended theorem at concrete inputs. -/
theorem claim1_witness :
    cleanup (fun _ => true) 0 (.cons (.regularDesc 5 none) .nil) = ⟨0, [], none⟩ ∧
    cleanupNode (fun _ => true) 0
      (FileDesc.directoryDesc none (.cons (.regularDesc 5 none) .nil)) = ⟨1, [], none⟩ ∧
    destroyerStepSys ⟨WorkerPC.pass 3, DestroyerPC.acquiring, false, 0⟩ =
      ⟨WorkerPC.pass 3, DestroyerPC.acquiring, false, 0⟩ :=
  ⟨claim1_amended.1 (fun _ => true) 0 _ rfl,
   claim1_amended.2.1 (fun _ => true) 0 _ rfl,
   claim1_amended.2.2.1 ⟨WorkerPC.pass 3, DestroyerPC.acquiring, false, 0⟩ rfl⟩

/-- Claim C2.  For every configured update period P read by
`IcePatch::Server::run` (given that the earlier startup checks pass):
if P = 0 no `Updater` is constructed; if 0 < P < 10 an `Updater` is
constructed with effective period exactly 10; if P ≥ 10 an `Updater`
is constructed with effective period exactly P. -/
theorem claim2_updatePeriod (appName version : String) (cfg : ServerConfig)
    (hep : cfg.endpoints ≠ "") (hch : cfg.chdirFails = false) :
    (cfg.updatePeriod = 0 →
      (serverRun appName version [] cfg).updaterPeriod = none) ∧
    (0 < cfg.updatePeriod → cfg.updatePeriod < 10 →
      (serverRun appName version [] cfg).updaterPeriod = some 10) ∧
    (10 ≤ cfg.updatePeriod →
      (serverRun appName version [] cfg).updaterPeriod = some cfg.updatePeriod) := by
  refine ⟨?_, ?_, ?_⟩
  · intro h
    simp [serverRun, hep, hch, h]
  · intro h1 h2
    have hne : cfg.updatePeriod ≠ 0 := by omega
    simp [serverRun, hep, hch, hne, h2]
  · intro h1
    have hne : cfg.updatePeriod ≠ 0 := by omega
    have hlt : ¬ cfg.updatePeriod < 10 := by omega
    simp [serverRun, hep, hch, hne, hlt]

/-- Claim C2, witness at periods 0, 5 and 60. -/
theorem claim2_witness :
    (serverRun "icepatch" "1.0" [] ⟨"tcp", "", false, 0⟩).updaterPeriod = none ∧
    (serverRun "icepatch" "1.0" [] ⟨"tcp", "", false, 5⟩).updaterPeriod = some 10 ∧
    (serverRun "icepatch" "1.0" [] ⟨"tcp", "", false, 60⟩).updaterPeriod = some 60 :=
  ⟨(claim2_updatePeriod "icepatch" "1.0" ⟨"tcp", "", false, 0⟩ (by decide) rfl).1 rfl,
   (claim2_updatePeriod "icepatch" "1.0" ⟨"tcp", "", false, 5⟩ (by decide) rfl).2.1
     (by decide) (by decide),
   (claim2_updatePeriod "icepatch" "1.0" ⟨"tcp", "", false, 60⟩ (by decide) rfl).2.2
     (by decide)⟩

/-- Claim C3.  A failure during a pass that is neither a
`FileAccessException` nor a `BusyException` is logged exactly when a
shutdown is not in progress (suppressed entirely when it is), the rest
of the pass is abandoned (the loop body never continues past the node
that failed), and the updater keeps running: the iteration still
proceeds to `timedWait` whenever `_destroy` is not set. -/
theorem claim3_otherFailure (env : PassEnv) (flag : Nat → Bool) (t : Nat) (d : String)
    (h : (runPass env flag t).err = some (IceException.other d)) :
    (runIteration env flag t).logs =
      (if env.shutdownFromInterrupt then [] else [otherLog d]) ∧
    (runIteration env flag t).continues = !flag (runPass env flag t).clock ∧
    (∀ (u : Nat) (fd : FileDesc) (rest : FileDescSeq) (e : IceException),
      (cleanupNode flag u fd).err = some e →
      cleanupSeq flag u (.cons fd rest) = cleanupNode flag u fd) := by
  refine ⟨?_, rfl, ?_⟩
  · simp [runIteration, h, classifyLogs]
  · intro u fd rest e he
    simp [cleanupSeq, he]

/-- Claim C3, witness: a generic failure with shutdown not in
progress is logged; a node failure aborts the loop over its
siblings. -/
theorem claim3_witness :
    (runIteration ⟨some (IceException.other "oops"), .nil, false⟩ (fun _ => false) 0).logs =
      [otherLog "oops"] ∧
    cleanupSeq (fun _ => false) 0
      (.cons (.regularDesc 7 (some (IceException.other "oops"))) .nil) =
      cleanupNode (fun _ => false) 0 (.regularDesc 7 (some (IceException.other "oops"))) := by
  refine ⟨?_, ?_⟩
  · have h :=
      (claim3_otherFailure ⟨some (IceException.other "oops"), .nil, false⟩
        (fun _ => false) 0 "oops" rfl).1
    simpa using h
  · exact
      (claim3_otherFailure ⟨some (IceException.other "oops"), .nil, false⟩
        (fun _ => false) 0 "oops" rfl).2.2 0 _ .nil _ rfl

/-- Claim C4.  A pass in which some node raises a
`FileAccessException` produces exactly one log entry, carrying the
failure's `reason`, and the iteration still reaches the
`timedWait` step whenever `_destroy` is not set, so the daemon
continues to the next scheduled pass. -/
theorem claim4_accessFailure (env : PassEnv) (flag : Nat → Bool) (t : Nat) (r : String)
    (h : (runPass env flag t).err = some (IceException.fileAccess r)) :
    (runIteration env flag t).logs = [accessLog r] ∧
    (flag (runPass env flag t).clock = false →
      (runIteration env flag t).continues = true) := by
  refine ⟨?_, ?_⟩
  · simp [runIteration, h, classifyLogs]
  · intro hf
    simp [runIteration, hf]

/-- Claim C4, witness: an access failure with reason "denied" on the
only file of the root directory. -/
theorem claim4_witness :
    (runIteration
        ⟨none, .cons (.regularDesc 4 (some (IceException.fileAccess "denied"))) .nil, false⟩
        (fun _ => false) 0).logs = [accessLog "denied"] ∧
    (runIteration
        ⟨none, .cons (.regularDesc 4 (some (IceException.fileAccess "denied"))) .nil, false⟩
        (fun _ => false) 0).continues = true :=
  ⟨(claim4_accessFailure
      ⟨none, .cons (.regularDesc 4 (some (IceException.fileAccess "denied"))) .nil, false⟩
      (fun _ => false) 0 "denied" rfl).1,
   (claim4_accessFailure
      ⟨none, .cons (.regularDesc 4 (some (IceException.fileAccess "denied"))) .nil, false⟩
      (fun _ => false) 0 "denied" rfl).2 rfl⟩

/-- Claim C5.  A pass in which some node raises a `BusyException`
produces zero log output, the pass is abandoned silently, and the
iteration still reaches the `timedWait` step whenever `_destroy` is
not set, retrying only on the next scheduled pass. -/
theorem claim5_busy (env : PassEnv) (flag : Nat → Bool) (t : Nat)
    (h : (runPass env flag t).err = some IceException.busy) :
    (runIteration env flag t).logs = [] ∧
    (flag (runPass env flag t).clock = false →
      (runIteration env flag t).continues = true) := by
  refine ⟨?_, ?_⟩
  · simp [runIteration, h, classifyLogs]
  · intro hf
    simp [runIteration, hf]

/-- Claim C5, witness: a busy condition on the only file of the root
directory. -/
theorem claim5_witness :
    (runIteration ⟨none, .cons (.regularDesc 4 (some IceException.busy)) .nil, false⟩
        (fun _ => false) 0).logs = [] ∧
    (runIteration ⟨none, .cons (.regularDesc 4 (some IceException.busy)) .nil, false⟩
        (fun _ => false) 0).continues = true :=
  ⟨(claim5_busy ⟨none, .cons (.regularDesc 4 (some IceException.busy)) .nil, false⟩
      (fun _ => false) 0 rfl).1,
   (claim5_busy ⟨none, .cons (.regularDesc 4 (some IceException.busy)) .nil, false⟩
      (fun _ => false) 0 rfl).2 rfl⟩

/-- Claim C6.  `destroy()` sets the stop flag and signals the monitor
condition, leaves everything else (in particular whether the worker
has terminated) unchanged, and is idempotent: repeating it any number
of times, including after the worker has terminated, yields the same
state as a single call. -/
theorem claim6_destroyIdempotent (s : UpdaterState) (n : Nat) (h : 1 ≤ n) :
    (destroyOp s).destroy = true ∧
    (destroyOp s).notified = true ∧
    (destroyOp s).terminated = s.terminated ∧
    destroyOp (destroyOp s) = destroyOp s ∧
    destroyOp^[n] s = destroyOp s := by
  have key : ∀ (m : Nat) (x : UpdaterState), destroyOp^[m] (destroyOp x) = destroyOp x := by
    intro m
    induction m with
    | zero => intro x; rfl
    | succ k ih =>
      intro x
      rw [Function.iterate_succ_apply]
      exact ih (destroyOp x)
  refine ⟨rfl, rfl, rfl, rfl, ?_⟩
  obtain ⟨m, rfl⟩ : ∃ m, n = m + 1 := ⟨n - 1, by omega⟩
  rw [Function.iterate_succ_apply]
  exact key m s

/-- Claim C6, witness: three `destroy()` calls on a freshly
constructed updater equal one call, and one call on an
already-destroyed, already-terminated state changes nothing. -/
theorem claim6_witness :
    destroyOp^[3] initUpdater = destroyOp initUpdater ∧
    destroyOp (destroyOp ⟨false, false, true⟩) = destroyOp ⟨false, false, true⟩ ∧
    (destroyOp ⟨true, true, true⟩).terminated = true :=
  ⟨(claim6_destroyIdempotent initUpdater 3 (by decide)).2.2.2.2,
   (claim6_destroyIdempotent ⟨false, false, true⟩ 1 (by decide)).2.2.2.1,
   (claim6_destroyIdempotent ⟨true, true, true⟩ 1 (by decide)).2.2.1⟩

/-- Claim C7.  For a root directory containing exactly one regular
file, a single pass invokes `getBZ2Size()` exactly once, on that file,
and emits no log output. -/
theorem claim7_singleFilePass :
    (runIteration ⟨none, .cons (.regularDesc 0 none) .nil, false⟩
        (fun _ => false) 0).warmed = [0] ∧
    (runIteration ⟨none, .cons (.regularDesc 0 none) .nil, false⟩
        (fun _ => false) 0).logs = [] :=
  ⟨rfl, rfl⟩

/-- Claim C8.  `IcePatch::Server::run` examines its first argument
(each branch of the option loop returns): `-h`/`--help` prints the
usage text to the error stream and exits successfully; `-v`/`--version`
prints the version and exits successfully; any other flag prints an
error followed by the usage text to the error stream and exits with
failure — in all three cases before any adapter is created. -/
theorem claim8_options (appName version a : String) (rest : List String)
    (cfg : ServerConfig) :
    ((a = "-h" ∨ a = "--help") →
      serverRun appName version (a :: rest) cfg =
        ⟨0, usageLines appName, [], false, none⟩) ∧
    ((a = "-v" ∨ a = "--version") →
      serverRun appName version (a :: rest) cfg =
        ⟨0, [], [version], false, none⟩) ∧
    (a ≠ "-h" → a ≠ "--help" → a ≠ "-v" → a ≠ "--version" →
      serverRun appName version (a :: rest) cfg =
        ⟨1, (appName ++ ": unknown option " ++ a) :: usageLines appName,
          [], false, none⟩) := by
  refine ⟨?_, ?_, ?_⟩
  · intro h
    simp [serverRun, h]
  · intro h
    rcases h with h | h <;> subst h <;> simp [serverRun]
  · intro h1 h2 h3 h4
    simp [serverRun, h1, h2, h3, h4]

/-- Claim C8, witness: `-h`, `--version` and `--bogus` as the first
argument. -/
theorem claim8_witness :
    serverRun "icepatch" "1.0" ["-h"] ⟨"", "", false, 0⟩ =
      ⟨0, usageLines "icepatch", [], false, none⟩ ∧
    serverRun "icepatch" "1.0" ["--version"] ⟨"", "", false, 0⟩ =
      ⟨0, [], ["1.0"], false, none⟩ ∧
    serverRun "icepatch" "1.0" ["--bogus"] ⟨"", "", false, 0⟩ =
      ⟨1, ("icepatch" ++ ": unknown option " ++ "--bogus") :: usageLines "icepatch",
        [], false, none⟩ :=
  ⟨(claim8_options "icepatch" "1.0" "-h" [] ⟨"", "", false, 0⟩).1 (Or.inl rfl),
   (claim8_options "icepatch" "1.0" "--version" [] ⟨"", "", false, 0⟩).2.1 (Or.inr rfl),
   (claim8_options "icepatch" "1.0" "--bogus" [] ⟨"", "", false, 0⟩).2.2
     (by decide) (by decide) (by decide) (by decide)⟩

/-- Claim C9.  The `_destroy` flag is monotone: the constructor
initializes it to false, worker steps never write it, the only write
is `destroy()` setting it to true, so along any schedule of operations
the flag never goes back from true to false; and once the worker
observes it at the loop top it starts no further pass (the loop
produces no further warming work and no further logs). -/
theorem claim9_destroyMonotone :
    initUpdater.destroy = false ∧
    (∀ s : UpdaterState, applyOp s UpdaterOp.workerStep = s) ∧
    (∀ (s : UpdaterState) (ops : List UpdaterOp),
      s.destroy = true → (applyOps s ops).destroy = true) ∧
    (∀ (sched : List UpdaterOp) (t u : Nat), t ≤ u →
      flagOfSchedule sched t = true → flagOfSchedule sched u = true) ∧
    (∀ (env : PassEnv) (sched : List UpdaterOp) (t fuel : Nat),
      flagOfSchedule sched t = true →
      runLoop env (flagOfSchedule sched) t fuel = ⟨[], []⟩) := by
  have hpres : ∀ (s : UpdaterState) (ops : List UpdaterOp),
      s.destroy = true → (applyOps s ops).destroy = true := by
    intro s ops
    induction ops generalizing s with
    | nil => intro h; exact h
    | cons op ops ih =>
      intro h
      cases op with
      | workerStep => exact ih s h
      | destroyCall => exact ih (destroyOp s) rfl
  refine ⟨rfl, fun s => rfl, hpres, ?_, ?_⟩
  · intro sched t u htu hf
    obtain ⟨k, rfl⟩ : ∃ k, u = t + k := ⟨u - t, by omega⟩
    unfold flagOfSchedule at hf ⊢
    rw [List.take_add, applyOps_append]
    exact hpres _ _ hf
  · intro env sched t fuel hf
    cases fuel with
    | zero => rfl
    | succ k => simp [runLoop, hf]

/-- Claim C9, witness: after a `destroy()` call the flag stays set
along a later prefix, and the worker loop starting at an observed-set
flag performs nothing. -/
theorem claim9_witness :
    (applyOps ⟨true, false, false⟩ [UpdaterOp.workerStep]).destroy = true ∧
    flagOfSchedule [UpdaterOp.destroyCall] 2 = true ∧
    runLoop ⟨none, .nil, false⟩ (flagOfSchedule [UpdaterOp.destroyCall]) 1 3 = ⟨[], []⟩ :=
  ⟨claim9_destroyMonotone.2.2.1 ⟨true, false, false⟩ [UpdaterOp.workerStep] rfl,
   claim9_destroyMonotone.2.2.2.1 [UpdaterOp.destroyCall] 1 2 (by decide) rfl,
   claim9_destroyMonotone.2.2.2.2 ⟨none, .nil, false⟩ [UpdaterOp.destroyCall] 1 3 rfl⟩

/-- Claim C10.  A strictly negative configured update period does not
disable the updater: the run proceeds (adapter created), an `Updater`
is constructed, and its effective period is clamped up to the 10
time-unit floor, exactly as for a positive period below the floor. -/
theorem claim10_negativePeriod (appName version : String) (cfg : ServerConfig)
    (hep : cfg.endpoints ≠ "") (hch : cfg.chdirFails = false)
    (hneg : cfg.updatePeriod < 0) :
    (serverRun appName version [] cfg).updaterPeriod = some 10 ∧
    (serverRun appName version [] cfg).adapterCreated = true := by
  have hne : cfg.updatePeriod ≠ 0 := by omega
  have hlt : cfg.updatePeriod < 10 := by omega
  constructor <;> simp [serverRun, hep, hch, hne, hlt]

/-- Claim C10, witness at period -5. -/
theorem claim10_witness :
    (serverRun "icepatch" "1.0" [] ⟨"tcp", "", false, -5⟩).updaterPeriod = some 10 ∧
    (serverRun "icepatch" "1.0" [] ⟨"tcp", "", false, -5⟩).adapterCreated = true :=
  claim10_negativePeriod "icepatch" "1.0" ⟨"tcp", "", false, -5⟩
    (by decide) rfl (by decide)

end IcePatch
